import Mathlib

/-!
Verification of the taskgraph task-runner library.

The definitions below are a shallow embedding of the TypeScript sources:
`Task.ts` (the abstract `Task` class), `Logger.ts` (the deferred logger) and
`TaskRunner.ts` (the execution engine).  JavaScript `undefined`/absent values
are modelled with `Option`; a thrown `Error` is modelled with `Except`;
`process.exit(1)` is modelled as an abort marker; JavaScript numbers are
modelled with `Int` where a subtraction below zero matters.  Display-only
spinner text updates and chalk colouring are not modelled; the terminal
`succeed()`/`failed()` calls and the printed log lines are kept as events.
-/

namespace TaskGraph

/-- Source: `enum RunResult { Success = 0, Failed = 1, Pending = -1 }` in Task.ts. -/
inductive RunResult where
  | Success
  | Failed
  | Pending
deriving DecidableEq

/-- Source: `type TaskFlag = { name; description; required? }` in Task.ts.
The optional `required` marker is an `Option Bool`. -/
structure TaskFlag where
  name : String
  description : String
  required : Option Bool := none
deriving DecidableEq

/-- Source: `type TaskDependency = { command; paramsOverride? }` in Task.ts. -/
structure TaskDependency where
  command : String
  paramsOverride : Option (List String) := none
deriving DecidableEq

/-- Source: the argument bag `type Args = { [name: string]: any }` produced by
`CommandLineParser()`.  The parser stores the positional values under the
`_args` key (absent when no positional value was given, hence `Option`) and
every flag under its own name.  Flag values are modelled as strings. -/
structure Args where
  _args : Option (List String) := none
  flags : List (String × String) := []
deriving DecidableEq

/-- Source: the keys of the argument-bag object, as enumerated by
`Object.keys(this.argValues)`: the `_args` key when present, then the flag
names. -/
def argKeys (a : Args) : List String :=
  (match a._args with
   | some _ => ["_args"]
   | none => []) ++ a.flags.map Prod.fst

/-- Source: the `LogType` union of the levels info, warn and error in
Logger.ts. -/
inductive LogType where
  | info
  | warn
  | error
deriving DecidableEq

/-- Source: `type DeferredLogData = { type; message; params? }` in Logger.ts. -/
structure DeferredLogData where
  type : LogType
  message : String
  params : Option (List String) := none
deriving DecidableEq

/-- Source: the private state of `class Logger` in Logger.ts: a tag
(initially the empty string) and the buffered entries. -/
structure Logger where
  tag : String := ""
  logData : List DeferredLogData := []
deriving DecidableEq

/-- Source: `Logger.setTag(tag)` in Logger.ts. -/
def Logger.setTag (l : Logger) (tag : String) : Logger :=
  { l with tag := tag }

/-- Source: the private `Logger.log(type, message, params?)` in Logger.ts:
appends an entry whose message is the template literal interpolation of
the current tag, bracketed, followed by the message. -/
def Logger.log (l : Logger) (type : LogType) (message : String)
    (params : Option (List String)) : Logger :=
  { l with logData :=
      l.logData ++ [⟨type, "[" ++ l.tag ++ "] " ++ message, params⟩] }

/-- Source: one call a task body makes on its logger during `run()`:
the arguments of `info`/`warn`/`error`, all of which forward to
`Logger.log` with the corresponding level. -/
structure LogCall where
  type : LogType
  message : String
  params : Option (List String) := none
deriving DecidableEq

/-- Source: the `@topcli/spinner` progress indicator attached to a task;
only its presence matters to the embedded claims. -/
structure Spinner where
  text : String := ""
deriving DecidableEq

/-- Source: the abstract `class Task` in Task.ts.  The abstract and
overridable methods become fields (with the source default values);
`getTaskLabel()` defaults to `getCommand()`.  The effect of the abstract
`run()` body is modelled as a pure function from the scoped argument bag to
the list of logger calls it makes plus the result it leaves in place
(`RunResult.Pending` when the body never calls `setResult`). -/
structure Task where
  getCommand : String
  getDescription : String
  isInternalTask : Bool := false
  getDependencies : List TaskDependency := []
  getParams : List String := []
  getFlags : List TaskFlag := []
  getTaskLabel : String := getCommand
  run : Args → List LogCall × RunResult := fun _ => ([], RunResult.Pending)

/-- Source: the mutable run-scoped fields of `class Task`:
`argValues`, `result`, `spinner` and `log`, with their initialisers. -/
structure TaskState where
  argValues : Args := {}
  result : RunResult := RunResult.Pending
  spinner : Option Spinner := none
  log : Logger := {}
deriving DecidableEq

/-- Source: the errors thrown by `Task.getParam` and `Task.getFlag`,
distinguished in the source by their message text. -/
inductive TaskError where
  | InvalidParam
  | MissingParam
  | InvalidFlag
  | MissingRequiredFlag
deriving DecidableEq

/-- Source: `Task.getParam(name)` in Task.ts (lines 76-90).  The source
checks `params.includes(name)`, then compares
`this.argValues._args.length < index - 1` with JavaScript number
arithmetic (hence the `Int` cast: for `index = 0` the bound is `-1`), and
finally returns `this.argValues._args[index]`, which is `undefined`
(modelled `none`) when the index is out of range.  The runner always
stores a list under `_args` before `run()`, so the bag access is modelled
with `getD []`. -/
def Task.getParam (t : Task) (s : TaskState) (name : String) :
    Except TaskError (Option String) :=
  let params := t.getParams
  if ¬ params.contains name then
    Except.error TaskError.InvalidParam
  else
    let index := params.indexOf name
    let args := s.argValues._args.getD []
    if (args.length : Int) < (index : Int) - 1 then
      Except.error TaskError.MissingParam
    else
      Except.ok args[index]?

/-- Source: `Task.getFlag(name)` in Task.ts (lines 96-112).  The source
finds the first declared flag with the requested name, throws when there is
none, throws when that declaration has `required === true` and the bag
holds no value (`value == null`), and otherwise returns `value ?? null`
(`Except.ok none` models the null sentinel). -/
def Task.getFlag (t : Task) (s : TaskState) (name : String) :
    Except TaskError (Option String) :=
  match t.getFlags.find? (fun flag => flag.name == name) with
  | none => Except.error TaskError.InvalidFlag
  | some flagDefinition =>
    let value := List.lookup name s.argValues.flags
    if flagDefinition.required = some true ∧ value = none then
      Except.error TaskError.MissingRequiredFlag
    else
      Except.ok value

/-- Source: `Task.initialiseRunContext(args, spinner)` in Task.ts
(lines 121-126): stores the scoped bag, resets the result to `Pending`,
attaches the spinner and retags the logger with the task label.  Note the
source never touches `log.logData`. -/
def Task.initialiseRunContext (t : Task) (s : TaskState) (args : Args)
    (spinner : Spinner) : TaskState :=
  { s with argValues := args,
           result := RunResult.Pending,
           spinner := some spinner,
           log := s.log.setTag t.getTaskLabel }

/-- Source: `tasks: { [command: string]: Task }` in TaskRunner.ts, the
registry populated by `registerTask`.  JavaScript object keys are unique;
the association list is looked up with `List.lookup`. -/
abbrev Registry := List (String × Task)

/-- Source: TaskRunner.ts lines 261-267.  The scoped argument bag of one
invocation: the spread `{ ...this.argValues }` keeps every flag of the
global bag, `_args` becomes `(this.argValues._args ?? []).slice(1)`, and a
dependency declaration with a non-null `paramsOverride` replaces the
positional list outright. -/
def scopedArgs (global : Args) (dependencyDefinition : Option TaskDependency) :
    Args :=
  let taskArgs : Args :=
    { global with _args := some ((global._args.getD []).drop 1) }
  match dependencyDefinition with
  | some d =>
    match d.paramsOverride with
    | some ov => { taskArgs with _args := some ov }
    | none => taskArgs
  | none => taskArgs

/-- Observable engine events of one `TaskRunner.run` invocation, in program
order: spinner attachment, the fatal error print before `process.exit(1)`,
the start and end of a task body, the push of a completed task logger onto
`this.loggers`, the terminal spinner call, and the post-run printing. -/
inductive Event where
  | spinnerStart (label : String)
  | fatalError (title : String)
  | runStart (command : String)
  | runEnd (command : String)
  | pushLogger (logger : Logger)
  | spinnerSucceed (label : String)
  | spinnerFailed (label : String)
  | printBlank
  | printEntry (entry : DeferredLogData)
deriving DecidableEq

/-- Source: the state of the private task logger once `run()` has returned:
`initialiseRunContext` retagged a fresh per-invocation logger with the task
label, and the body appended its calls through `Logger.log`. -/
def loggerAfterRun (t : Task) (taskArgs : Args) : Logger :=
  (t.run taskArgs).1.foldl
    (fun l c => l.log c.type c.message c.params)
    { tag := t.getTaskLabel, logData := [] }

/-- Source: TaskRunner.ts lines 285-296 decide the terminal spinner call
from the task result: `spinner.failed()` exactly when the result is
`RunResult.Failed`, `spinner.succeed()` in every other case. -/
def settleEvent (global : Args) (t : Task)
    (dependencyDefinition : Option TaskDependency) : Event :=
  if (t.run (scopedArgs global dependencyDefinition)).2 = RunResult.Failed then
    Event.spinnerFailed t.getTaskLabel
  else
    Event.spinnerSucceed t.getTaskLabel

/-- Terminal display state of the progress indicator. -/
inductive SpinnerOutcome where
  | succeeded
  | failed
deriving DecidableEq

/-- Source: the `if (result === RunResult.Failed)` branch of TaskRunner.ts
lines 285-296, as a function of the result alone. -/
def terminalDisplay (result : RunResult) : SpinnerOutcome :=
  if result = RunResult.Failed then SpinnerOutcome.failed
  else SpinnerOutcome.succeeded

/-- The terminal spinner call for a given display state and task label. -/
def spinnerEvent (label : String) : SpinnerOutcome → Event
  | SpinnerOutcome.succeeded => Event.spinnerSucceed label
  | SpinnerOutcome.failed => Event.spinnerFailed label

/-- Source: TaskRunner.ts lines 261-296, the part of `runTask` that runs
after the dependency join: build the scoped bag, compare
`task.getParams().length > taskArgs._args.length` (printing `Missing
params` and exiting on shortfall, modelled by the `true` abort flag),
otherwise initialise the run context, await `run()`, push the task logger
onto `this.loggers` and settle the spinner. -/
def runTaskTail (global : Args) (t : Task)
    (dependencyDefinition : Option TaskDependency) : List Event × Bool :=
  let taskArgs := scopedArgs global dependencyDefinition
  if t.getParams.length > (taskArgs._args.getD []).length then
    ([Event.fatalError "Missing params"], true)
  else
    ([Event.runStart t.getCommand,
      Event.runEnd t.getCommand,
      Event.pushLogger (loggerAfterRun t taskArgs),
      settleEvent global t dependencyDefinition], false)

/-- Interleaving of two event lists: the order inside each list is kept,
the two lists overlap arbitrarily.  This models the cooperative scheduling
of two concurrently awaited invocation branches. -/
inductive Interleave : List Event → List Event → List Event → Prop where
  | nil : Interleave [] [] []
  | left {x : Event} {xs ys zs : List Event} :
      Interleave xs ys zs → Interleave (x :: xs) ys (x :: zs)
  | right {y : Event} {xs ys zs : List Event} :
      Interleave xs ys zs → Interleave xs (y :: ys) (y :: zs)

/-- Shuffle of a family of event lists: some interleaving of all of them.
This models `Promise.all` starting every sibling dependency together with
no defined completion order among them. -/
inductive ShuffleAll : List (List Event) → List Event → Prop where
  | nil : ShuffleAll [] []
  | cons {l rest out : List Event} {ls : List (List Event)} :
      ShuffleAll ls rest → Interleave l rest out → ShuffleAll (l :: ls) out

mutual

/-- Source: `TaskRunner.runTask` in TaskRunner.ts (lines 228-297).  A trace
of one non-aborting invocation of `runTask` for a task reached through the
given dependency declaration (`none` at the root): the spinner starts, the
dependency declarations are resolved in the registry and all run
concurrently (any shuffle of their traces), and after the join the
post-dependency tail runs.  Note the trace shape does not depend on any
dependency having set `RunResult.Failed`. -/
inductive RunTrace (registry : Registry) (global : Args) :
    Task → Option TaskDependency → List Event → Prop where
  | node (t : Task) (dependencyDefinition : Option TaskDependency)
      (depTraces : List (List Event)) (merged tail : List Event)
      (hdeps : DepTraces registry global t.getDependencies depTraces)
      (hmerge : ShuffleAll depTraces merged)
      (htail : runTaskTail global t dependencyDefinition = (tail, false)) :
      RunTrace registry global t dependencyDefinition
        (Event.spinnerStart t.getTaskLabel :: merged ++ tail)

/-- Source: the `dependencies.map` callback of TaskRunner.ts lines 244-257:
each declared dependency command is looked up in the registry (the lookup
failure is the fatal `Invalid dependency` exit, not covered by this
relation of completed runs) and recursively invoked with the declaration. -/
inductive DepTraces (registry : Registry) (global : Args) :
    List TaskDependency → List (List Event) → Prop where
  | nil : DepTraces registry global [] []
  | cons (d : TaskDependency) (dt : Task) (tr : List Event)
      (ds : List TaskDependency) (trs : List (List Event))
      (hlookup : List.lookup d.command registry = some dt)
      (htr : RunTrace registry global dt (some d) tr)
      (hrest : DepTraces registry global ds trs) :
      DepTraces registry global (d :: ds) (tr :: trs)

end

/-- Source: `Logger.printLogs` in Logger.ts: every buffered entry of one
logger is printed, in buffer order. -/
def flushLogger (l : Logger) : List Event :=
  l.logData.map Event.printEntry

/-- The `this.loggers` array at the end of a trace: the pushed loggers in
push order (TaskRunner.ts line 283 pushes each task logger immediately
after its `run()` returns). -/
def loggersOf (tr : List Event) : List Logger :=
  tr.filterMap (fun e =>
    match e with
    | Event.pushLogger l => some l
    | _ => none)

/-- Source: TaskRunner.ts lines 220-226: after `await this.runTask(task)`
returns, the runner prints a blank line and then calls `printLogs` on every
accumulated logger in array order. -/
inductive RunnerRun (registry : Registry) (global : Args) (t : Task) :
    List Event → Prop where
  | mk (tr : List Event) (h : RunTrace registry global t none tr) :
      RunnerRun registry global t
        (tr ++ Event.printBlank :: (loggersOf tr).flatMap flushLogger)

/-- Source: `class TaskRunner` in TaskRunner.ts: the runner name, the task
registry and the parsed global argument bag. -/
structure TaskRunner where
  name : String
  tasks : Registry
  argValues : Args

/-- Source: `TaskRunner.getAvailableCommands`: the registered command names
whose task is not internal. -/
def getAvailableCommands (r : TaskRunner) : List String :=
  r.tasks.filterMap (fun p =>
    if p.2.isInternalTask then none else some p.1)

/-- Outcome of the command-dispatch part of `TaskRunner.run` (TaskRunner.ts
lines 191-218): the help listing, an error print followed by
`process.exit(1)`, or the hand-off of the resolved task to `runTask`. -/
inductive RunOutcome where
  | helpPrinted
  | errorExit (title : String) (available : List String)
  | executed (task : Task)

/-- Exit behaviour of a dispatch outcome: `errorExit` reaches
`process.exit(1)`, the other outcomes do not exit. -/
def exitStatus : RunOutcome → Option Nat
  | RunOutcome.errorExit _ _ => some 1
  | _ => none

/-- Whether the dispatch handed a task to `runTask`. -/
def isExecuted : RunOutcome → Bool
  | RunOutcome.executed _ => true
  | _ => false

/-- Source: `TaskRunner.run` in TaskRunner.ts (lines 191-218), the dispatch
before any task executes: the `help` key short-circuits to the help
listing; a null or empty `_args` is the `No command specified.` exit; an
unregistered first token, or a registered task marked internal, is the
`Invalid command specified.` exit; otherwise the task is executed. -/
def TaskRunner.run (r : TaskRunner) : RunOutcome :=
  if (argKeys r.argValues).contains "help" then
    RunOutcome.helpPrinted
  else
    match r.argValues._args with
    | none => RunOutcome.errorExit "No command specified." (getAvailableCommands r)
    | some [] => RunOutcome.errorExit "No command specified." (getAvailableCommands r)
    | some (command :: _) =>
      match List.lookup command r.tasks with
      | none =>
        RunOutcome.errorExit "Invalid command specified." (getAvailableCommands r)
      | some task =>
        if task.isInternalTask then
          RunOutcome.errorExit "Invalid command specified." (getAvailableCommands r)
        else
          RunOutcome.executed task

/-- Concrete task declaring one required param, used to evaluate
`Task.getParam` at the boundary. -/
def folderTask : Task :=
  { getCommand := "create-folder", getDescription := "creates a folder",
    getParams := ["folder_name"] }

/-- Run-scoped state whose positional list is empty: the param
`folder_name` was not supplied. -/
def folderState : TaskState :=
  { argValues := { _args := some [], flags := [] } }

/-- Concrete task used for the run-context reset counterexample. -/
def taskC2 : Task :=
  { getCommand := "t", getDescription := "" }

/-- State of `taskC2` after a previous invocation: the result was set and
the private log buffer holds one entry. -/
def stateC2 : TaskState :=
  { argValues := { _args := some ["old"], flags := [] },
    result := RunResult.Failed,
    spinner := none,
    log := { tag := "t", logData := [⟨LogType.info, "[t] old entry", none⟩] } }

/-- Fresh scoped argument bag passed to the next invocation of `taskC2`. -/
def argsC2 : Args :=
  { _args := some [], flags := [] }

/-- Concrete task declaring one required flag, used to evaluate
`Task.getFlag`. -/
def flagTask : Task :=
  { getCommand := "build", getDescription := "builds",
    getFlags := [{ name := "verbose", description := "chatty", required := some true }] }

/-- Run-scoped state whose bag holds no flag values. -/
def flagState : TaskState :=
  { argValues := { _args := some [], flags := [] } }

/-- Concrete dependency task: logs one message and sets `Success`. -/
def childTask : Task :=
  { getCommand := "child", getDescription := "dependency work",
    run := fun _ => ([⟨LogType.info, "hello", none⟩], RunResult.Success) }

/-- Dependency declaration referencing `childTask`, with no override. -/
def exDep : TaskDependency :=
  { command := "child" }

/-- Concrete root task depending on `childTask`; its body never calls
`setResult`, so its result stays `Pending`. -/
def parentTask : Task :=
  { getCommand := "parent", getDescription := "top level work",
    getDependencies := [exDep] }

/-- Registry holding the two example tasks. -/
def exRegistry : Registry :=
  [("parent", parentTask), ("child", childTask)]

/-- Global invocation bag: the command token plus one flag. -/
def exGlobal : Args :=
  { _args := some ["parent"], flags := [("verbose", "1")] }

/-- Post-join tail trace of the child invocation. -/
def childTail : List Event :=
  [Event.runStart "child", Event.runEnd "child",
   Event.pushLogger ⟨"child", [⟨LogType.info, "[child] hello", none⟩]⟩,
   Event.spinnerSucceed "child"]

/-- Complete trace of the child invocation. -/
def childTrace : List Event :=
  Event.spinnerStart "child" :: [] ++ childTail

/-- Post-join tail trace of the parent invocation. -/
def parentTail : List Event :=
  [Event.runStart "parent", Event.runEnd "parent",
   Event.pushLogger ⟨"parent", []⟩,
   Event.spinnerSucceed "parent"]

/-- Complete trace of the parent invocation, child subtree included. -/
def exTrace : List Event :=
  Event.spinnerStart "parent" :: childTrace ++ parentTail

/-- Complete trace of `TaskRunner.run` on the example, deferred log
printing included. -/
def exFullTrace : List Event :=
  exTrace ++ Event.printBlank :: (loggersOf exTrace).flatMap flushLogger

/-- Concrete internal task (the `InternalTask` subclass sets
`isInternalTask` to true and an empty description). -/
def internalTask : Task :=
  { getCommand := "secret", getDescription := "", isInternalTask := true }

/-- Runner whose invocation names the internal task directly. -/
def runner9 : TaskRunner :=
  { name := "tool",
    tasks := [("secret", internalTask)],
    argValues := { _args := some ["secret"], flags := [] } }

/-- Runner with the same invocation but no task registered under the
command at all. -/
def runner9b : TaskRunner :=
  { name := "tool",
    tasks := [],
    argValues := { _args := some ["secret"], flags := [] } }

/-- Runner invoked with the `help` flag and a valid command token. -/
def runner10 : TaskRunner :=
  { name := "tool",
    tasks := [("parent", parentTask), ("child", childTask)],
    argValues := { _args := some ["parent"], flags := [("help", "true")] } }

theorem Interleave.sublist_left {xs ys zs : List Event}
    (h : Interleave xs ys zs) : xs.Sublist zs := by
  induction h with
  | nil => exact List.Sublist.slnil
  | left _ ih => exact ih.cons₂ _
  | right _ ih => exact ih.cons _

theorem Interleave.sublist_right {xs ys zs : List Event}
    (h : Interleave xs ys zs) : ys.Sublist zs := by
  induction h with
  | nil => exact List.Sublist.slnil
  | left _ ih => exact ih.cons _
  | right _ ih => exact ih.cons₂ _

theorem Interleave.mem_or {xs ys zs : List Event} {e : Event}
    (h : Interleave xs ys zs) (he : e ∈ zs) : e ∈ xs ∨ e ∈ ys := by
  induction h with
  | nil => cases he
  | left _ ih =>
    rcases List.mem_cons.mp he with h1 | h1
    · exact Or.inl (h1 ▸ List.mem_cons_self _ _)
    · rcases ih h1 with h2 | h2
      · exact Or.inl (List.mem_cons_of_mem _ h2)
      · exact Or.inr h2
  | right _ ih =>
    rcases List.mem_cons.mp he with h1 | h1
    · exact Or.inr (h1 ▸ List.mem_cons_self _ _)
    · rcases ih h1 with h2 | h2
      · exact Or.inl h2
      · exact Or.inr (List.mem_cons_of_mem _ h2)

theorem interleave_nil_right (l : List Event) : Interleave l [] l := by
  induction l with
  | nil => exact Interleave.nil
  | cons x xs ih => exact ih.left

theorem ShuffleAll.sublist {ls : List (List Event)} {out l : List Event}
    (h : ShuffleAll ls out) (hl : l ∈ ls) : l.Sublist out := by
  induction h with
  | nil => cases hl
  | cons hrest hint ih =>
    rcases List.mem_cons.mp hl with h1 | h1
    · exact h1 ▸ hint.sublist_left
    · exact (ih h1).trans hint.sublist_right

theorem ShuffleAll.mem_of_mem {ls : List (List Event)} {out : List Event}
    {e : Event} (h : ShuffleAll ls out) (he : e ∈ out) : ∃ l ∈ ls, e ∈ l := by
  induction h with
  | nil => cases he
  | cons hrest hint ih =>
    rcases hint.mem_or he with h1 | h1
    · exact ⟨_, List.mem_cons_self _ _, h1⟩
    · obtain ⟨l2, hl2, hel2⟩ := ih h1
      exact ⟨l2, List.mem_cons_of_mem _ hl2, hel2⟩

/-- The settle event of an invocation is one of the two terminal spinner
calls on the task label. -/
theorem settleEvent_cases (global : Args) (t : Task)
    (dd : Option TaskDependency) :
    settleEvent global t dd = Event.spinnerFailed t.getTaskLabel ∨
    settleEvent global t dd = Event.spinnerSucceed t.getTaskLabel := by
  unfold settleEvent
  split
  · exact Or.inl rfl
  · exact Or.inr rfl

/-- Shape of a non-aborting `runTask` tail: exactly the run window, the
logger push and the settle event, and the param count was sufficient. -/
theorem runTaskTail_false {global : Args} {t : Task}
    {dd : Option TaskDependency} {tail : List Event}
    (h : runTaskTail global t dd = (tail, false)) :
    tail = [Event.runStart t.getCommand, Event.runEnd t.getCommand,
            Event.pushLogger (loggerAfterRun t (scopedArgs global dd)),
            settleEvent global t dd] ∧
    t.getParams.length ≤ ((scopedArgs global dd)._args.getD []).length := by
  unfold runTaskTail at h
  dsimp only at h
  split at h
  · exact absurd (congrArg Prod.snd h) (by simp)
  · next hle =>
    refine ⟨(congrArg Prod.fst h).symm, ?_⟩
    omega

theorem depTraces_mem_decl {registry : Registry} {global : Args} :
    ∀ {ds : List TaskDependency} {trs : List (List Event)},
      DepTraces registry global ds trs → ∀ {d}, d ∈ ds →
      ∃ dt tr, List.lookup d.command registry = some dt ∧
        RunTrace registry global dt (some d) tr ∧ tr ∈ trs := by
  intro ds
  induction ds with
  | nil => intro trs _ d hd; cases hd
  | cons d0 ds ih =>
    intro trs h d hd
    cases h with
    | cons _ dt tr _ trs0 hlookup htr hrest =>
      rcases List.mem_cons.mp hd with h1 | h1
      · exact ⟨dt, tr, h1 ▸ hlookup, h1 ▸ htr, List.mem_cons_self _ _⟩
      · obtain ⟨dt2, tr2, h2, h3, h4⟩ := ih hrest h1
        exact ⟨dt2, tr2, h2, h3, List.mem_cons_of_mem _ h4⟩

theorem depTraces_mem_trace {registry : Registry} {global : Args} :
    ∀ {ds : List TaskDependency} {trs : List (List Event)},
      DepTraces registry global ds trs → ∀ {tr}, tr ∈ trs →
      ∃ d dt, d ∈ ds ∧ List.lookup d.command registry = some dt ∧
        RunTrace registry global dt (some d) tr := by
  intro ds
  induction ds with
  | nil =>
    intro trs h tr htr
    cases h
    cases htr
  | cons d0 ds ih =>
    intro trs h tr htr
    cases h with
    | cons _ dt tr0 _ trs0 hlookup htr0 hrest =>
      rcases List.mem_cons.mp htr with h1 | h1
      · exact ⟨d0, dt, List.mem_cons_self _ _, hlookup, h1 ▸ htr0⟩
      · obtain ⟨d2, dt2, h2, h3, h4⟩ := ih hrest h1
        exact ⟨d2, dt2, List.mem_cons_of_mem _ h2, h3, h4⟩

/-- The settle event of an invocation occurs in its trace. -/
theorem runTrace_settle_mem {registry : Registry} {global : Args} {t : Task}
    {dd : Option TaskDependency} {tr : List Event}
    (h : RunTrace registry global t dd tr) : settleEvent global t dd ∈ tr := by
  cases h with
  | node t dd depTraces merged tail hdeps hmerge htail =>
    obtain ⟨htl, _⟩ := runTaskTail_false htail
    subst htl
    simp

/-- Folding the logger calls of a run over `Logger.log` keeps the tag and
appends exactly the tagged entries, in call order. -/
theorem logger_foldl (calls : List LogCall) :
    ∀ init : Logger,
      (calls.foldl (fun l c => l.log c.type c.message c.params) init).tag =
        init.tag ∧
      (calls.foldl (fun l c => l.log c.type c.message c.params) init).logData =
        init.logData ++ calls.map
          (fun c => ⟨c.type, "[" ++ init.tag ++ "] " ++ c.message, c.params⟩) := by
  induction calls with
  | nil => intro init; simp
  | cons c cs ih =>
    intro init
    obtain ⟨h1, h2⟩ := ih (init.log c.type c.message c.params)
    refine ⟨by simpa [Logger.log] using h1, ?_⟩
    rw [List.foldl_cons, h2]
    simp [Logger.log]

/-- The logger of a completed task is tagged with the task label. -/
theorem loggerAfterRun_tag (t : Task) (taskArgs : Args) :
    (loggerAfterRun t taskArgs).tag = t.getTaskLabel :=
  (logger_foldl _ _).1

/-- Every entry of the logger of a completed task carries the task label,
bracketed, at the head of its message. -/
theorem loggerAfterRun_message {t : Task} {taskArgs : Args}
    {d : DeferredLogData} (hd : d ∈ (loggerAfterRun t taskArgs).logData) :
    ∃ m, d.message = "[" ++ t.getTaskLabel ++ "] " ++ m := by
  have h2 := (logger_foldl (t.run taskArgs).1
    { tag := t.getTaskLabel, logData := [] }).2
  rw [loggerAfterRun] at hd
  rw [h2] at hd
  simp only [List.nil_append, List.mem_map] at hd
  obtain ⟨c, _, hc⟩ := hd
  exact ⟨c.message, by rw [← hc]⟩

/-- Every event of a `runTask` trace is an engine event: never a print
event, and every pushed logger is the post-run logger of some task for
some scoped bag. -/
theorem runTrace_events {registry : Registry} {global : Args} :
    ∀ (n : Nat) (t : Task) (dd : Option TaskDependency) (tr : List Event),
      tr.length ≤ n → RunTrace registry global t dd tr →
      ∀ e ∈ tr,
        (∀ d, e ≠ Event.printEntry d) ∧ e ≠ Event.printBlank ∧
        (∀ l, e = Event.pushLogger l →
          ∃ t2 dd2, l = loggerAfterRun t2 (scopedArgs global dd2)) := by
  intro n
  induction n with
  | zero =>
    intro t dd tr hlen h e he
    cases h with
    | node t dd depTraces merged tail hdeps hmerge htail =>
      simp at hlen
  | succ n ih =>
    intro t dd tr hlen h e he
    cases h with
    | node t dd depTraces merged tail hdeps hmerge htail =>
      obtain ⟨htl, _⟩ := runTaskTail_false htail
      subst htl
      rcases List.mem_cons.mp he with h1 | h1
      · subst h1; refine ⟨by simp, by simp, by simp⟩
      rcases List.mem_append.mp h1 with h2 | h2
      · obtain ⟨tr1, htr1, hetr1⟩ := hmerge.mem_of_mem h2
        obtain ⟨d, dt, _, _, hrt⟩ := depTraces_mem_trace hdeps htr1
        have hsub := hmerge.sublist htr1
        have hlen1 : tr1.length ≤ n := by
          have hle1 : tr1.length ≤ merged.length := hsub.length_le
          have hle2 := hlen
          simp [List.length_append] at hle2
          omega
        exact ih dt (some d) tr1 hlen1 hrt e hetr1
      · rcases List.mem_cons.mp h2 with h3 | h3
        · subst h3; exact ⟨by simp, by simp, by simp⟩
        rcases List.mem_cons.mp h3 with h4 | h4
        · subst h4; exact ⟨by simp, by simp, by simp⟩
        rcases List.mem_cons.mp h4 with h5 | h5
        · subst h5
          refine ⟨by simp, by simp, ?_⟩
          intro l hl
          exact ⟨t, dd, by simpa using hl.symm⟩
        rcases List.mem_cons.mp h5 with h6 | h6
        · subst h6
          rcases settleEvent_cases global t dd with h7 | h7 <;>
            rw [h7] <;> exact ⟨by simp, by simp, by simp⟩
        · cases h6

/-- Membership in the accumulated logger array is the occurrence of the
corresponding push event in the trace. -/
theorem loggersOf_mem {tr : List Event} {l : Logger} :
    l ∈ loggersOf tr ↔ Event.pushLogger l ∈ tr := by
  unfold loggersOf
  rw [List.mem_filterMap]
  constructor
  · rintro ⟨e, he, hel⟩
    cases e <;> simp_all
  · intro h
    exact ⟨Event.pushLogger l, h, rfl⟩

/-- Derivation: the child invocation produces its trace. -/
theorem exampleChildRunTrace :
    RunTrace exRegistry exGlobal childTask (some exDep) childTrace :=
  RunTrace.node childTask (some exDep) [] [] childTail
    DepTraces.nil ShuffleAll.nil rfl

/-- Derivation: the parent invocation produces its trace, the child
subtree included. -/
theorem exampleRunTrace :
    RunTrace exRegistry exGlobal parentTask none exTrace :=
  RunTrace.node parentTask none [childTrace] childTrace parentTail
    (DepTraces.cons exDep childTask childTrace [] []
      rfl exampleChildRunTrace DepTraces.nil)
    (ShuffleAll.cons ShuffleAll.nil (interleave_nil_right childTrace))
    rfl

/-- C1: the claim says `getParam` fails with `MissingParam` whenever the
scoped positional list has no value at the index of the requested name.
The source compares `_args.length < index - 1` (an off-by-two slip: the
failure message `Param not supplied` documents the intended guard), so for
the declared param at index 0 with an empty positional list `getParam`
raises no error and returns the `undefined` sentinel instead. -/
theorem getParam_missing_check_bug :
    folderTask.getParam folderState "folder_name" = Except.ok none := by
  rfl

/-- C2 counterexample: `initialiseRunContext` does not reset all
run-scoped state: on a task instance whose previous invocation buffered a
log entry, the fresh bag and `Pending` result are installed but the log
buffer still holds the old entry, refuting the conjunction at this input. -/
theorem initialiseRunContext_stale_log_cex :
    ¬ ((taskC2.initialiseRunContext stateC2 argsC2 {}).argValues = argsC2 ∧
       (taskC2.initialiseRunContext stateC2 argsC2 {}).result = RunResult.Pending ∧
       (taskC2.initialiseRunContext stateC2 argsC2 {}).log.logData = []) := by
  decide

/-- C2 amended: `initialiseRunContext` replaces the argument bag with the
new scoped bag, resets the result to `Pending`, attaches the spinner and
retags the logger with the task label, but it does not clear the private
log buffer: entries of previous invocations of the same instance are
carried over unchanged. -/
theorem initialiseRunContext_resets (t : Task) (s : TaskState) (args : Args)
    (spinner : Spinner) :
    (t.initialiseRunContext s args spinner).argValues = args ∧
    (t.initialiseRunContext s args spinner).result = RunResult.Pending ∧
    (t.initialiseRunContext s args spinner).spinner = some spinner ∧
    (t.initialiseRunContext s args spinner).log.tag = t.getTaskLabel ∧
    (t.initialiseRunContext s args spinner).log.logData = s.log.logData := by
  exact ⟨rfl, rfl, rfl, rfl, rfl⟩

/-- C3: for every invocation (root or dependency), the engine aborts with
the fatal `Missing params` condition exactly when the scoped positional
count is below the declared `getParams` length, and the task body starts
exactly when the count is at least that length. -/
theorem missing_params_gates_run (global : Args) (t : Task)
    (dependencyDefinition : Option TaskDependency) :
    ((runTaskTail global t dependencyDefinition).2 = true ↔
      ((scopedArgs global dependencyDefinition)._args.getD []).length <
        t.getParams.length) ∧
    (Event.fatalError "Missing params" ∈ (runTaskTail global t dependencyDefinition).1 ↔
      ((scopedArgs global dependencyDefinition)._args.getD []).length <
        t.getParams.length) ∧
    (Event.runStart t.getCommand ∈ (runTaskTail global t dependencyDefinition).1 ↔
      t.getParams.length ≤
        ((scopedArgs global dependencyDefinition)._args.getD []).length) := by
  unfold runTaskTail
  dsimp only
  split
  · next hgt =>
    refine ⟨by simpa using hgt, by simpa using hgt, ?_⟩
    simp only [List.mem_singleton]
    constructor
    · intro hx; cases hx
    · intro hx; omega
  · next hle =>
    have hle2 : t.getParams.length ≤
        ((scopedArgs global dependencyDefinition)._args.getD []).length := by
      omega
    refine ⟨by simpa using hle2, ?_, by simp [hle2]⟩
    simp only [List.mem_cons, List.mem_singleton]
    constructor
    · rintro (hx | hx | hx | hx | hx)
      · cases hx
      · cases hx
      · cases hx
      · rcases settleEvent_cases global t dependencyDefinition with hc | hc <;>
          rw [hc] at hx <;> cases hx
      · cases hx
    · intro hx; omega

/-- C4: the scoped bag of a dependency invocation: a declared
`paramsOverride` list becomes the positional values outright, independent
of the invocation positionals; with no override the positionals are the
global positional values with the leading command token stripped; and in
every case the flag map of the global invocation is passed through
unchanged. -/
theorem dependency_argument_binding (global : Args) (c : String)
    (ov : List String) (dependencyDefinition : Option TaskDependency) :
    (scopedArgs global (some ⟨c, some ov⟩))._args = some ov ∧
    (scopedArgs global (some ⟨c, none⟩))._args =
      some ((global._args.getD []).drop 1) ∧
    (scopedArgs global dependencyDefinition).flags = global.flags := by
  refine ⟨rfl, rfl, ?_⟩
  unfold scopedArgs
  rcases dependencyDefinition with _ | ⟨c2, ov2⟩
  · rfl
  · rcases ov2 with _ | l <;> rfl

/-- C6: after `run()` returns, the terminal display state is a function of
the task result alone: the indicator is marked failed exactly when the
result is `Failed`, and succeeded in every other case, the untouched
initial `Pending` value included; the settle event of an invocation is
that function applied to the result its body left in place. -/
theorem terminal_display_from_result (result : RunResult) (global : Args)
    (t : Task) (dependencyDefinition : Option TaskDependency) :
    (terminalDisplay result = SpinnerOutcome.failed ↔
      result = RunResult.Failed) ∧
    terminalDisplay RunResult.Pending = SpinnerOutcome.succeeded ∧
    terminalDisplay RunResult.Success = SpinnerOutcome.succeeded ∧
    settleEvent global t dependencyDefinition =
      spinnerEvent t.getTaskLabel
        (terminalDisplay
          (t.run (scopedArgs global dependencyDefinition)).2) := by
  refine ⟨?_, rfl, rfl, ?_⟩
  · unfold terminalDisplay
    split
    · next hy => simp [hy]
    · next hn => simp [hn]
  · by_cases hc :
      (t.run (scopedArgs global dependencyDefinition)).2 = RunResult.Failed <;>
      simp [settleEvent, terminalDisplay, spinnerEvent, hc]

/-- C5: in every trace of an invocation, one AND-join: every declared
dependency (resolved through the registry and run under any interleaving
of the sibling traces, modelling the concurrent fan-out) settles strictly
before the parent body starts, and the parent body does start, with no
condition on any dependency having set its result to `Failed`. -/
theorem dependencies_settle_before_parent_runs (registry : Registry)
    (global : Args) (t : Task) (dependencyDefinition : Option TaskDependency)
    (tr : List Event)
    (h : RunTrace registry global t dependencyDefinition tr) :
    Event.runStart t.getCommand ∈ tr ∧
    ∀ d ∈ t.getDependencies, ∀ dt,
      List.lookup d.command registry = some dt →
      ∃ l1 l2 l3, tr = l1 ++ settleEvent global dt (some d) :: l2 ++
        Event.runStart t.getCommand :: l3 := by
  cases h with
  | node t dd depTraces merged tail hdeps hmerge htail =>
    obtain ⟨htl, _⟩ := runTaskTail_false htail
    subst htl
    constructor
    · simp
    · intro d hd dt hdt
      obtain ⟨dt0, tr1, hlk, hrt, htr1⟩ := depTraces_mem_decl hdeps hd
      have hdt0 : dt0 = dt := by
        rw [hdt] at hlk
        exact (Option.some.inj hlk).symm
      rw [hdt0] at hrt
      have hsettle : settleEvent global dt (some d) ∈ tr1 :=
        runTrace_settle_mem hrt
      have hmem : settleEvent global dt (some d) ∈ merged :=
        (hmerge.sublist htr1).subset hsettle
      obtain ⟨m1, m2, hm⟩ := List.append_of_mem hmem
      subst hm
      refine ⟨Event.spinnerStart t.getTaskLabel :: m1, m2,
        [Event.runEnd t.getCommand,
         Event.pushLogger (loggerAfterRun t (scopedArgs global dependencyDefinition)),
         settleEvent global t dependencyDefinition], ?_⟩
      simp

/-- Witness for C5 at the concrete two-task example: in the parent trace
the child settle event precedes the parent run start. -/
theorem dependencies_settle_before_parent_runs_witness :
    Event.runStart "parent" ∈ exTrace ∧
    ∃ l1 l2 l3, exTrace = l1 ++ settleEvent exGlobal childTask (some exDep) ::
      l2 ++ Event.runStart "parent" :: l3 := by
  have h := dependencies_settle_before_parent_runs exRegistry exGlobal
    parentTask none exTrace exampleRunTrace
  exact ⟨h.1, h.2 exDep (List.mem_cons_self _ _) childTask rfl⟩

/-- C7: `getFlag` fails with `InvalidFlag` exactly when the name is not
among the declared flag names; on a declared flag (names assumed distinct,
as the first matching declaration is used) it fails with
`MissingRequiredFlag` exactly when the declaration is required and the bag
holds no value; a supplied value is returned, and an absent optional flag
yields the null sentinel. -/
theorem getFlag_spec (t : Task) (s : TaskState) (name : String)
    (hnodup : (t.getFlags.map TaskFlag.name).Nodup) :
    (t.getFlag s name = Except.error TaskError.InvalidFlag ↔
      ∀ f ∈ t.getFlags, f.name ≠ name) ∧
    (t.getFlag s name = Except.error TaskError.MissingRequiredFlag ↔
      ∃ f ∈ t.getFlags, f.name = name ∧ f.required = some true ∧
        List.lookup name s.argValues.flags = none) ∧
    (∀ v, List.lookup name s.argValues.flags = some v →
      (∃ f ∈ t.getFlags, f.name = name) →
      t.getFlag s name = Except.ok (some v)) ∧
    (∀ f ∈ t.getFlags, f.name = name → f.required ≠ some true →
      List.lookup name s.argValues.flags = none →
      t.getFlag s name = Except.ok none) := by
  cases hfind : t.getFlags.find? (fun flag => flag.name == name) with
  | none =>
    have hnone : ∀ f ∈ t.getFlags, f.name ≠ name := by
      intro f hf
      have h1 := List.find?_eq_none.mp hfind f hf
      simpa using h1
    refine ⟨?_, ?_, ?_, ?_⟩
    · simp only [Task.getFlag, hfind]
      exact ⟨fun _ => hnone, fun _ => trivial⟩
    · simp only [Task.getFlag, hfind]
      constructor
      · intro hx; cases hx
      · rintro ⟨f, hf, hfname, _⟩
        exact absurd hfname (hnone f hf)
    · rintro v _ ⟨f, hf, hfname⟩
      exact absurd hfname (hnone f hf)
    · intro f hf hfname
      exact absurd hfname (hnone f hf)
  | some fd =>
    have hmem : fd ∈ t.getFlags := List.mem_of_find?_eq_some hfind
    have hname : fd.name = name := by
      have h1 := List.find?_some hfind
      simpa using h1
    have huniq : ∀ f ∈ t.getFlags, f.name = name → f = fd := by
      intro f hf hfname
      by_contra hne
      have hpair : t.getFlags.Pairwise
          (fun a b : TaskFlag => a.name ≠ b.name) := by
        rw [List.Nodup, List.pairwise_map] at hnodup
        exact hnodup
      have hne2 : f.name ≠ fd.name := hpair.forall
        (fun a b hab => hab.symm) hf hmem hne
      exact hne2 (hfname.trans hname.symm)
    by_cases hreq : fd.required = some true ∧
        List.lookup name s.argValues.flags = none
    · have hval : t.getFlag s name =
          Except.error TaskError.MissingRequiredFlag := by
        simp only [Task.getFlag, hfind]
        rw [if_pos hreq]
      refine ⟨?_, ?_, ?_, ?_⟩
      · rw [hval]
        constructor
        · intro hx; cases hx
        · intro hall
          exact absurd hname (hall fd hmem)
      · rw [hval]
        exact ⟨fun _ => ⟨fd, hmem, hname, hreq.1, hreq.2⟩, fun _ => rfl⟩
      · intro v hv
        rw [hreq.2] at hv
        cases hv
      · intro f hf hfname hfreq _
        exact absurd ((huniq f hf hfname) ▸ hfreq) (fun hx => hx hreq.1)
    · have hval : t.getFlag s name =
          Except.ok (List.lookup name s.argValues.flags) := by
        simp only [Task.getFlag, hfind]
        rw [if_neg hreq]
      refine ⟨?_, ?_, ?_, ?_⟩
      · rw [hval]
        constructor
        · intro hx; cases hx
        · intro hall
          exact absurd hname (hall fd hmem)
      · rw [hval]
        constructor
        · intro hx; cases hx
        · rintro ⟨f, hf, hfname, hfreq, hlk⟩
          have hfd := huniq f hf hfname
          exact absurd ⟨hfd ▸ hfreq, hlk⟩ hreq
      · intro v hv _
        rw [hval, hv]
      · intro f hf hfname hfreq hlk
        rw [hval, hlk]

/-- Witness for C7 at a concrete task: the required flag `verbose` with no
supplied value makes `getFlag` fail with `MissingRequiredFlag`. -/
theorem getFlag_spec_witness :
    (flagTask.getFlags.map TaskFlag.name).Nodup ∧
    (flagTask.getFlag flagState "verbose" =
        Except.error TaskError.MissingRequiredFlag ↔
      ∃ f ∈ flagTask.getFlags, f.name = "verbose" ∧ f.required = some true ∧
        List.lookup "verbose" flagState.argValues.flags = none) :=
  ⟨by decide, (getFlag_spec flagTask flagState "verbose" (by decide)).2.1⟩

/-- C8: a complete runner trace decomposes into the execution trace of the
root subtree, during which nothing is printed, followed by the blank
separator and the flush of the accumulated loggers in the order they were
pushed (each push happens immediately after the owning body returned); and
every accumulated logger is the post-run logger of some task, tagged with
that task label, every buffered entry carrying that label bracketed at the
head of its message. -/
theorem logs_flushed_after_subtree (registry : Registry) (global : Args)
    (t : Task) (tr : List Event) (h : RunnerRun registry global t tr) :
    ∃ t1, RunTrace registry global t none t1 ∧
      tr = t1 ++ Event.printBlank :: (loggersOf t1).flatMap flushLogger ∧
      (∀ e ∈ t1, ∀ d, e ≠ Event.printEntry d) ∧
      (∀ l ∈ loggersOf t1, ∃ t2 dd2,
        l = loggerAfterRun t2 (scopedArgs global dd2) ∧
        l.tag = t2.getTaskLabel ∧
        ∀ d ∈ l.logData, ∃ m, d.message = "[" ++ l.tag ++ "] " ++ m) := by
  cases h with
  | mk t1 h1 =>
    refine ⟨t1, h1, rfl, ?_, ?_⟩
    · intro e he d
      exact (runTrace_events t1.length t none t1 (le_refl _) h1 e he).1 d
    · intro l hl
      have hpush : Event.pushLogger l ∈ t1 := loggersOf_mem.mp hl
      obtain ⟨t2, dd2, hl2⟩ :=
        (runTrace_events t1.length t none t1 (le_refl _) h1 _ hpush).2.2 l rfl
      refine ⟨t2, dd2, hl2, ?_, ?_⟩
      · rw [hl2]
        exact loggerAfterRun_tag t2 _
      · intro d hd
        rw [hl2] at hd
        obtain ⟨m, hm⟩ := loggerAfterRun_message hd
        refine ⟨m, ?_⟩
        rw [hl2, loggerAfterRun_tag]
        exact hm

/-- Witness for C8 at the concrete two-task example runner trace. -/
theorem logs_flushed_after_subtree_witness :
    ∃ t1, RunTrace exRegistry exGlobal parentTask none t1 ∧
      exFullTrace = t1 ++ Event.printBlank ::
        (loggersOf t1).flatMap flushLogger ∧
      (∀ e ∈ t1, ∀ d, e ≠ Event.printEntry d) ∧
      (∀ l ∈ loggersOf t1, ∃ t2 dd2,
        l = loggerAfterRun t2 (scopedArgs exGlobal dd2) ∧
        l.tag = t2.getTaskLabel ∧
        ∀ d ∈ l.logData, ∃ m, d.message = "[" ++ l.tag ++ "] " ++ m) :=
  logs_flushed_after_subtree exRegistry exGlobal parentTask exFullTrace
    (RunnerRun.mk exTrace exampleRunTrace)

/-- C9: an invocation whose first positional token names a registered task
marked internal is rejected exactly like an unregistered command: the same
`Invalid command specified.` error with the available (non-internal)
command list, exit status 1, and no task is handed to `runTask`. -/
theorem internal_task_rejected_like_unknown (r r2 : TaskRunner)
    (command : String) (rest : List String) (task : Task)
    (hargs : r.argValues._args = some (command :: rest))
    (hhelp : (argKeys r.argValues).contains "help" = false)
    (hlookup : List.lookup command r.tasks = some task)
    (hinternal : task.isInternalTask = true)
    (hargs2 : r2.argValues = r.argValues)
    (hlookup2 : List.lookup command r2.tasks = none) :
    TaskRunner.run r =
      RunOutcome.errorExit "Invalid command specified."
        (getAvailableCommands r) ∧
    TaskRunner.run r2 =
      RunOutcome.errorExit "Invalid command specified."
        (getAvailableCommands r2) ∧
    isExecuted (TaskRunner.run r) = false ∧
    exitStatus (TaskRunner.run r) = some 1 := by
  have h1 : TaskRunner.run r =
      RunOutcome.errorExit "Invalid command specified."
        (getAvailableCommands r) := by
    unfold TaskRunner.run
    rw [hhelp, hargs]
    simp [hlookup, hinternal]
  have h2 : TaskRunner.run r2 =
      RunOutcome.errorExit "Invalid command specified."
        (getAvailableCommands r2) := by
    unfold TaskRunner.run
    rw [hargs2, hhelp, hargs]
    simp [hlookup2]
  exact ⟨h1, h2, by rw [h1]; rfl, by rw [h1]; rfl⟩

/-- Witness for C9: a runner invoking its internal task `secret` directly,
and a runner with no task under that command, both reject identically. -/
theorem internal_task_rejected_witness :
    TaskRunner.run runner9 =
      RunOutcome.errorExit "Invalid command specified."
        (getAvailableCommands runner9) ∧
    TaskRunner.run runner9b =
      RunOutcome.errorExit "Invalid command specified."
        (getAvailableCommands runner9b) ∧
    isExecuted (TaskRunner.run runner9) = false ∧
    exitStatus (TaskRunner.run runner9) = some 1 :=
  internal_task_rejected_like_unknown runner9 runner9b "secret" []
    internalTask rfl rfl rfl rfl rfl rfl

/-- C10: whenever the parsed bag carries the `help` key, the runner prints
the help listing and returns: no error exit and no task execution, whatever
else the invocation contains. -/
theorem help_flag_takes_precedence (r : TaskRunner)
    (h : (argKeys r.argValues).contains "help" = true) :
    TaskRunner.run r = RunOutcome.helpPrinted ∧
    isExecuted (TaskRunner.run r) = false ∧
    exitStatus (TaskRunner.run r) = none := by
  have h1 : TaskRunner.run r = RunOutcome.helpPrinted := by
    unfold TaskRunner.run
    rw [h]
    rfl
  exact ⟨h1, by rw [h1]; rfl, by rw [h1]; rfl⟩

/-- Witness for C10: a runner invoked with the `help` flag and a valid
command token still only prints help. -/
theorem help_flag_takes_precedence_witness :
    (argKeys runner10.argValues).contains "help" = true ∧
    (TaskRunner.run runner10 = RunOutcome.helpPrinted ∧
     isExecuted (TaskRunner.run runner10) = false ∧
     exitStatus (TaskRunner.run runner10) = none) :=
  ⟨rfl, help_flag_takes_precedence runner10 rfl⟩

end TaskGraph
